import Mathlib

/-!
Shallow embedding of the field layer of the columnar serialization engine
(RField.cxx) and proofs of the specification claims about it.

Machine integers are modelled as Nat or Int; byte addresses as Nat; C++
std::string values as List Char where the content of the string matters.
Fallible operations return Except or pair the new state with an optional
error, mirroring the check-then-mutate order of the source.
-/

namespace RFieldModel

/-- Column element types (EColumnType in the source). -/
inductive EColumnType where
  | kSwitch | kBit | kByte | kChar
  | kInt8 | kUInt8 | kInt16 | kUInt16 | kInt32 | kUInt32 | kInt64 | kUInt64
  | kReal32 | kReal64
  | kIndex32 | kIndex64 | kSplitIndex32 | kSplitIndex64
  | kSplitReal32 | kSplitReal64 | kSplitInt16 | kSplitInt32 | kSplitInt64
  deriving DecidableEq, Repr

/-- Structural role of a field node (ENTupleStructure in the source). -/
inductive ENTupleStructure where
  | kLeaf | kCollection | kRecord | kVariant
  deriving DecidableEq, Repr

/-! ## RFieldBase::EntryToColumnElementIndex (C5)

The walk from a field toward the root is modelled by the list of nodes on
that path, head first: the field itself, its parent, ..., the root.  Each
node contributes its structure and its number of fixed repetitions. -/

/-- Per-node data consulted by EntryToColumnElementIndex. -/
structure RFieldPathInfo where
  fStructure : ENTupleStructure
  fNRepetitions : Nat
  deriving DecidableEq, Repr

/-- The parent test of the loop body: the parent exists (the rest of the
path is nonempty) and has Collection or Variant structure. -/
def parentIsCollectionOrVariant : List RFieldPathInfo → Bool
  | parent :: _ =>
    decide (parent.fStructure = ENTupleStructure.kCollection ∨
            parent.fStructure = ENTupleStructure.kVariant)
  | [] => false

/-- Loop of RFieldBase::EntryToColumnElementIndex: for f running over the
path, if f has a Collection- or Variant-structured parent return 0,
otherwise multiply the running result by max(nRepetitions, 1). -/
def entryToColumnElementIndexLoop : List RFieldPathInfo → Nat → Nat
  | [], result => result
  | f :: rest, result =>
    if parentIsCollectionOrVariant rest then 0
    else entryToColumnElementIndexLoop rest (result * max f.fNRepetitions 1)

/-- RFieldBase::EntryToColumnElementIndex on the path from the field (head)
to the root (last), starting from the given global entry index. -/
def entryToColumnElementIndex (path : List RFieldPathInfo) (globalIndex : Nat) : Nat :=
  entryToColumnElementIndexLoop path globalIndex

/-- Product of max(nRepetitions, 1) over all fields on a path. -/
def pathRepetitionProduct (path : List RFieldPathInfo) : Nat :=
  (path.map (fun f => max f.fNRepetitions 1)).prod

/-! ## RFieldBase::SetColumnRepresentative (C7) -/

/-- The column-related state of a field: its bound columns (by type) and the
chosen representative, if any. -/
structure RFieldColumnState where
  fColumns : List EColumnType
  fColumnRepresentative : Option (List EColumnType)
  deriving DecidableEq, Repr

/-- RFieldBase::SetColumnRepresentative.  The C++ code throws before any
mutation, so the model returns the (possibly unchanged) state together with
the error message if one was raised. -/
def setColumnRepresentative (serializationTypes : List (List EColumnType))
    (f : RFieldColumnState) (representative : List EColumnType) :
    RFieldColumnState × Option String :=
  if f.fColumns ≠ [] then
    (f, some "cannot set column representative once field is connected")
  else if serializationTypes.contains representative then
    ({ f with fColumnRepresentative := some representative }, none)
  else
    (f, some "invalid column representative")

/-! ## RFieldBase::EnsureCompatibleColumnTypes (C8)

Error messages are C++ std::string values; they are modelled as List Char
so that containment facts are plain list appends. -/

/-- Modelled from the spec: the printable name of a column element type.
RColumnElementBase::GetTypeName lives in the column-element layer, outside
this source tree; the spec only requires that the mismatch message names
each on-disk column type, so any injective naming serves. -/
def columnTypeName : EColumnType → List Char
  | .kSwitch => "Switch".data
  | .kBit => "Bit".data
  | .kByte => "Byte".data
  | .kChar => "Char".data
  | .kInt8 => "Int8".data
  | .kUInt8 => "UInt8".data
  | .kInt16 => "Int16".data
  | .kUInt16 => "UInt16".data
  | .kInt32 => "Int32".data
  | .kUInt32 => "UInt32".data
  | .kInt64 => "Int64".data
  | .kUInt64 => "UInt64".data
  | .kReal32 => "Real32".data
  | .kReal64 => "Real64".data
  | .kIndex32 => "Index32".data
  | .kIndex64 => "Index64".data
  | .kSplitIndex32 => "SplitIndex32".data
  | .kSplitIndex64 => "SplitIndex64".data
  | .kSplitReal32 => "SplitReal32".data
  | .kSplitReal64 => "SplitReal64".data
  | .kSplitInt16 => "SplitInt16".data
  | .kSplitInt32 => "SplitInt32".data
  | .kSplitInt64 => "SplitInt64".data

/-- The comma-separated list of on-disk column type names, built exactly as
the loop in EnsureCompatibleColumnTypes builds columnTypeNames. -/
def columnTypeNamesOf (onDiskTypes : List EColumnType) : List Char :=
  onDiskTypes.foldl
    (fun acc t => (if acc = [] then acc else acc ++ ", ".data) ++ columnTypeName t) []

/-- Loop of RFieldBase::GetQualifiedFieldName: starting from the field name,
prepend each ancestor name with a dot, stopping at the first ancestor whose
name is empty (the root).  The ancestor names are listed nearest first. -/
def getQualifiedFieldNameLoop : List Char → List (List Char) → List Char
  | result, [] => result
  | result, p :: ps =>
    if p = [] then result else getQualifiedFieldNameLoop (p ++ ".".data ++ result) ps

/-- RFieldBase::GetQualifiedFieldName for a field with the given name and
ancestor names (nearest first). -/
def getQualifiedFieldName (name : List Char) (ancestors : List (List Char)) : List Char :=
  getQualifiedFieldNameLoop name ancestors

/-- RFieldBase::EnsureCompatibleColumnTypes.  The descriptor is modelled as
the map from an on-disk field id to the ordered list of its column types;
the field contributes its deserialization table, its qualified name and its
optional on-disk id (kInvalidDescriptorId is modelled as none). -/
def ensureCompatibleColumnTypes (deserializationTypes : List (List EColumnType))
    (qualifiedName : List Char) (fOnDiskId : Option Nat)
    (descColumnTypes : Nat → List EColumnType) :
    Except (List Char) (List EColumnType) :=
  match fOnDiskId with
  | none =>
    Except.error ("No on-disk column information for field `".data ++ qualifiedName ++ "`".data)
  | some onDiskId =>
    let onDiskTypes := descColumnTypes onDiskId
    match deserializationTypes.find? (fun t => decide (t = onDiskTypes)) with
    | some t => Except.ok t
    | none =>
      Except.error ("On-disk column types `".data ++ columnTypeNamesOf onDiskTypes ++
                    "` for field `".data ++ qualifiedName ++ "` cannot be matched.".data)

/-! ## RFieldBase::ConnectPageSource (C10) -/

/-- The connection-relevant state of a field when connecting to a page
source. -/
structure RFieldConnectState where
  fColumns : List EColumnType
  fColumnRepresentative : Option (List EColumnType)
  fOnDiskId : Option Nat
  deriving DecidableEq, Repr

/-- RFieldBase::ConnectPageSource.  The kind-specific GenerateColumnsImpl
(which reads the descriptor and may itself fail in
EnsureCompatibleColumnTypes) is passed in as a function producing the
generated column types.  The source checks the fixed-representative error
before generating any columns; afterwards it records the generated columns
and locates the on-disk types in the deserialization table as the new
representative. -/
def connectPageSource (deserializationTypes : List (List EColumnType))
    (generateColumnsImplFromDesc : RFieldConnectState → Except (List Char) (List EColumnType))
    (f : RFieldConnectState) : Except (List Char) RFieldConnectState :=
  if f.fColumnRepresentative ≠ none then
    Except.error "fixed column representative only valid when connecting to a page sink".data
  else
    match generateColumnsImplFromDesc f with
    | Except.error e => Except.error e
    | Except.ok onDiskColumnTypes =>
      let rep := deserializationTypes.find? (fun t => decide (t = onDiskColumnTypes))
      Except.ok { f with fColumns := onDiskColumnTypes, fColumnRepresentative := rep }

/-! ## Index columns (shared by the string and nullable models)

Columns are modelled cluster-locally: the list holds the elements appended
since the cluster began, and GetCollectionInfo decodes entry i against the
previous cumulative value. -/

/-- RColumn::GetCollectionInfo on an index column (single-cluster model):
entry i spans from the previous cumulative value to the value at i,
returned as (collectionStart, size). -/
def getCollectionInfo (indexColumn : List Nat) (globalIndex : Nat) : Nat × Nat :=
  let collectionStart := if globalIndex = 0 then 0 else indexColumn.getD (globalIndex - 1) 0
  (collectionStart, indexColumn.getD globalIndex 0 - collectionStart)

/-! ## RField of std::string (C4) -/

/-- In-memory and column state of the std::string field: the cumulative
character count fIndex plus the two columns (index column and character
column). -/
structure RStringFieldState where
  fIndex : Nat
  indexColumn : List Nat
  charColumn : List Char
  deriving DecidableEq, Repr

/-- AppendImpl of the std::string field: write the characters, advance the
cumulative index by the length, append the new cumulative index to the
index column.  The returned byte count (length plus the packed size of the
index element) is not modelled. -/
def stringAppendImpl (s : RStringFieldState) (v : List Char) : RStringFieldState :=
  { fIndex := s.fIndex + v.length,
    indexColumn := s.indexColumn ++ [s.fIndex + v.length],
    charColumn := s.charColumn ++ v }

/-- ReadGlobalImpl of the std::string field: fetch (collectionStart,
nChars) from the principal column; when nChars is 0 the string is cleared,
otherwise nChars characters are bulk-read from the character column. -/
def stringReadGlobalImpl (s : RStringFieldState) (globalIndex : Nat) : List Char :=
  let info := getCollectionInfo s.indexColumn globalIndex
  if info.2 = 0 then []
  else (s.charColumn.drop info.1).take info.2

/-- CommitCluster of the std::string field: reset the cumulative index to
0. -/
def stringCommitCluster (s : RStringFieldState) : RStringFieldState :=
  { s with fIndex := 0 }

/-! ## RNullableField (C2) -/

/-- Serialization rows of RNullableField::GetColumnRepresentations. -/
def nullableSerializationTypes : List (List EColumnType) :=
  [[EColumnType.kSplitIndex64], [EColumnType.kIndex64], [EColumnType.kSplitIndex32],
   [EColumnType.kIndex32], [EColumnType.kBit]]

/-- RFieldBase::GetColumnRepresentative: the fixed representative, or the
first serialization row (the serialization default) when none is fixed. -/
def getColumnRepresentativeOf (serializationTypes : List (List EColumnType))
    (rep : Option (List EColumnType)) : List EColumnType :=
  rep.getD (serializationTypes.headD [])

/-- Modelled from the spec: RFieldBase::HasDefaultColumnRepresentative is
declared in the header, which is not under src; a field has the default
representative when none was explicitly chosen. -/
def hasDefaultColumnRepresentative (rep : Option (List EColumnType)) : Bool :=
  rep.isNone

/-- Modelled from the spec: RNullableField::IsDense is declared in the
header, which is not under src; per the spec a Nullable is dense exactly
when the bit-mask column representation is in effect. -/
def nullableIsDense (rep : Option (List EColumnType)) : Bool :=
  decide (getColumnRepresentativeOf nullableSerializationTypes rep = [EColumnType.kBit])

/-- State of an RNullableField: the item value size, the chosen
representative, the cluster-local write counter fNWritten, and the column
contents (index column for sparse, bit column for dense, plus the item
subfield's appended values, abstracted to Nat). -/
structure RNullableState where
  itemValueSize : Nat
  fColumnRepresentative : Option (List EColumnType)
  fNWritten : Nat
  indexColumn : List Nat
  bitColumn : List Bool
  itemColumn : List Nat
  deriving DecidableEq, Repr

/-- RNullableField::GenerateColumnsImpl (write side): with the default
representative and an item value size below 4 bytes, fix the bit-column
(dense) representation; otherwise keep the representative as is.  The
column objects themselves and the generated default item value are not
modelled. -/
def nullableGenerateColumnsImpl (f : RNullableState) : RNullableState :=
  if hasDefaultColumnRepresentative f.fColumnRepresentative ∧ f.itemValueSize < 4 then
    { f with fColumnRepresentative := some [EColumnType.kBit] }
  else f

/-- RNullableField::AppendNull: dense writes a false mask bit and the
default item value (modelled as 0); sparse repeats the current fNWritten on
the index column without incrementing it. -/
def nullableAppendNull (f : RNullableState) : RNullableState :=
  if nullableIsDense f.fColumnRepresentative then
    { f with bitColumn := f.bitColumn ++ [false], itemColumn := f.itemColumn ++ [0] }
  else
    { f with indexColumn := f.indexColumn ++ [f.fNWritten] }

/-- RNullableField::AppendValue: the item is appended first; dense then
writes a true mask bit, sparse increments fNWritten and appends the new
value to the index column. -/
def nullableAppendValue (f : RNullableState) (v : Nat) : RNullableState :=
  let f1 := { f with itemColumn := f.itemColumn ++ [v] }
  if nullableIsDense f1.fColumnRepresentative then
    { f1 with bitColumn := f1.bitColumn ++ [true] }
  else
    { f1 with fNWritten := f1.fNWritten + 1, indexColumn := f1.indexColumn ++ [f1.fNWritten + 1] }

/-- RNullableField::GetItemIndex: dense maps the bit at the entry (invalid
when the mask bit is false); sparse decodes the index column and reports
the invalid index exactly when the collection size is 0.  RClusterIndex is
modelled as Option Nat with none for kInvalidClusterIndex. -/
def nullableGetItemIndex (f : RNullableState) (globalIndex : Nat) : Option Nat :=
  if nullableIsDense f.fColumnRepresentative then
    if f.bitColumn.getD globalIndex false then some globalIndex else none
  else
    let info := getCollectionInfo f.indexColumn globalIndex
    if info.2 = 0 then none else some info.1

/-! ## RVectorField::ReadGlobalImpl (C1)

The in-memory vector is abstracted to its item count; the observable
per-item lifecycle actions (placement destruction, placement construction,
child reads) are collected as an event trace in program order. -/

/-- Observable per-item actions of RVectorField::ReadGlobalImpl. -/
inductive VectorReadEvent where
  | destroyItem (i : Nat)
  | constructItem (i : Nat)
  | readItem (i : Nat)
  deriving DecidableEq, Repr

/-- Whether an event is a placement construction. -/
def isConstructEvent : VectorReadEvent → Bool
  | .constructItem _ => true
  | _ => false

/-- Whether an event is a placement destruction. -/
def isDestroyEvent : VectorReadEvent → Bool
  | .destroyItem _ => true
  | _ => false

/-- RVectorField::ReadGlobalImpl, instrumented.  The traits of the item
subfield decide the branch: a trivial item type is resized with no
lifecycle work; otherwise canRealloc is true when the vector grows, all
elements are deallocated in that case (the resize may reallocate), excess
elements are destroyed before shrinking, missing elements are constructed
after growth, and finally every item is read from the columns. -/
def vectorReadGlobalImplEvents (trivialType triviallyDestructible triviallyConstructible : Bool)
    (oldNItems nItems : Nat) : List VectorReadEvent :=
  let reads := (List.range nItems).map VectorReadEvent.readItem
  if trivialType then reads
  else
    let canRealloc := decide (oldNItems < nItems)
    let allDeallocated := !triviallyDestructible && canRealloc
    let destroyStart := if allDeallocated then 0 else nItems
    let destroys :=
      if !triviallyDestructible then
        (List.range' destroyStart (oldNItems - destroyStart)).map VectorReadEvent.destroyItem
      else []
    let constructStart := if allDeallocated then 0 else oldNItems
    let constructs :=
      if !triviallyConstructible then
        (List.range' constructStart (nItems - constructStart)).map VectorReadEvent.constructItem
      else []
    destroys ++ constructs ++ reads

/-! ## RRVecField::DestroyValue and EvalValueSize (C6)

Pointers are modelled as byte addresses; the LP64 data model gives
sizeof(void pointer) = 8 and sizeof(std::int32_t) = 4. -/

/-- Size of the RVec header: one pointer plus two 32-bit integers. -/
def rvecDataMemberSize : Nat := 8 + 2 * 4

/-- Padding between the RVec header and the inline buffer, as computed
identically in DestroyValue and EvalValueSize. -/
def rvecPaddingMiddle (alignOfT : Nat) : Nat :=
  let p := rvecDataMemberSize % alignOfT
  if p = 0 then 0 else alignOfT - p

/-- Runtime mirror of RVecInlineStorageSize: a cache-line-driven element
count with a floor of 8 elements unless that would exceed 1024 bytes. -/
def rvecInlineStorageSize (sizeOfT : Nat) : Nat :=
  let cacheLineSize := 64
  let elementsPerCacheLine := (cacheLineSize - rvecDataMemberSize) / sizeOfT
  let maxInlineByteSize := 1024
  let nElements :=
    if elementsPerCacheLine ≥ 8 then elementsPerCacheLine
    else if sizeOfT * 8 > maxInlineByteSize then 0 else 8
  nElements * sizeOfT

/-- RRVecField::EvalValueSize: header, middle padding, inline storage and
trailing padding up to the alignment of the whole RVec. -/
def rvecEvalValueSize (sizeOfT alignOfT alignOfRVecT : Nat) : Nat :=
  let inlineStorageSz := rvecInlineStorageSize sizeOfT
  let paddingMiddle := rvecPaddingMiddle alignOfT
  let paddingEnd0 := (rvecDataMemberSize + paddingMiddle + inlineStorageSz) % alignOfRVecT
  let paddingEnd := if paddingEnd0 = 0 then 0 else alignOfRVecT - paddingEnd0
  rvecDataMemberSize + inlineStorageSz + paddingMiddle + paddingEnd

/-- Byte address of the inline buffer of an RVec at the given base address:
the header followed by the middle padding, exactly the layout EvalValueSize
accounts for. -/
def rvecInlineBufferAddr (base alignOfT : Nat) : Nat :=
  base + rvecDataMemberSize + rvecPaddingMiddle alignOfT

/-- Address DestroyValue actually compares begin against.  In the source
the addition beginPtr + dataMemberSz + paddingMiddle is pointer arithmetic
on a pointer to pointer, so each unit advances by sizeof(void pointer) = 8
bytes. -/
def rvecIsSmallComparedAddr (base alignOfT : Nat) : Nat :=
  base + (rvecDataMemberSize + rvecPaddingMiddle alignOfT) * 8

/-- RRVecField::DestroyValue, reduced to its freeing decision: the external
buffer is freed when the capacity is not -1 (owning) and begin does not
equal the compared address. -/
def rvecDestroyValueFrees (base beginAddr : Nat) (capacity : Int) (alignOfT : Nat) : Bool :=
  let isSmall := decide (beginAddr = rvecIsSmallComparedAddr base alignOfT)
  let owns := decide (capacity ≠ -1)
  !isSmall && owns

/-! ## RVariantField (C3)

A variant value is abstracted to its tag byte plus an abstract payload
(Nat); the per-alternative write counters and child columns are modelled
as Nat-indexed families. -/

/-- RVariantField::GetTag: a negative tag byte encodes the invalid tag 0,
otherwise the stored index plus 1. -/
def variantGetTag (tagByte : Int) : Nat :=
  if tagByte < 0 then 0 else tagByte.toNat + 1

/-- RVariantField::SetTag stores static_cast to char of (tag - 1): the
subtraction happens in unsigned 32-bit arithmetic and the low byte is
reinterpreted as a signed char. -/
def variantSetTagByte (tag : Nat) : Int :=
  let b := (tag + 255) % 256
  if b < 128 then (b : Int) else (b : Int) - 256

/-- Write-side state of an RVariantField: per-alternative cluster-local
write counts fNWritten, the switch column of (index, tag) records, and the
values appended to each subfield. -/
structure RVariantWriteState where
  fNWritten : Nat → Nat
  switchColumn : List (Nat × Nat)
  childColumns : Nat → List Nat

/-- RVariantField::AppendImpl: read the tag from the value; if it is
positive, append the payload to subfield tag-1 and post-increment that
subfield's write count; emit the switch record (index, tag), where index
stays 0 for the invalid tag. -/
def variantAppendImpl (s : RVariantWriteState) (tagByte : Int) (payload : Nat) :
    RVariantWriteState :=
  let tag := variantGetTag tagByte
  if tag > 0 then
    { fNWritten := fun j => if j = tag - 1 then s.fNWritten (tag - 1) + 1 else s.fNWritten j,
      switchColumn := s.switchColumn ++ [(s.fNWritten (tag - 1), tag)],
      childColumns := fun j =>
        if j = tag - 1 then s.childColumns (tag - 1) ++ [payload] else s.childColumns j }
  else
    { s with switchColumn := s.switchColumn ++ [(0, tag)] }

/-- Fold of AppendImpl over a list of (tag byte, payload) values. -/
def variantAppendAll (s : RVariantWriteState) (ops : List (Int × Nat)) : RVariantWriteState :=
  ops.foldl (fun st op => variantAppendImpl st op.1 op.2) s

/-- A fresh cluster: all write counts 0, all columns empty. -/
def variantFreshState : RVariantWriteState :=
  ⟨fun _ => 0, [], fun _ => []⟩

/-- Number of appended values holding alternative t among the given
operations. -/
def variantCountTag (ops : List (Int × Nat)) (t : Nat) : Nat :=
  (ops.filter (fun op => decide (variantGetTag op.1 = t))).length

/-- The switch column the claim describes: record k carries the count of
earlier appends holding the same alternative (0 for the invalid tag),
paired with the tag. -/
def variantExpectedSwitchColumn (ops : List (Int × Nat)) : List (Nat × Nat) :=
  (List.range ops.length).map fun k =>
    let t := variantGetTag (ops.getD k (0, 0)).1
    (if t > 0 then variantCountTag (ops.take k) t else 0, t)

/-- The child column the claim describes: the payloads of the appends
holding alternative j+1, in order. -/
def variantExpectedChildColumn (ops : List (Int × Nat)) (j : Nat) : List Nat :=
  (ops.filter (fun op => decide (variantGetTag op.1 = j + 1))).map (fun op => op.2)

/-- Read-side destination of an RVariantField: which alternative was
placement-constructed, which (alternative, index) was read, and the stored
tag byte. -/
structure RVariantDest where
  constructedAlt : Option Nat
  readSource : Option (Nat × Nat)
  tagByte : Int
  deriving DecidableEq, Repr

/-- RVariantField::ReadGlobalImpl given the decoded switch record
(variantIndex, tag): for a positive tag, placement-construct alternative
tag-1 and read it at variantIndex; finally store the tag. -/
def variantReadGlobalImpl (switchInfo : Nat × Nat) (dest : RVariantDest) : RVariantDest :=
  let tag := switchInfo.2
  let dest1 :=
    if tag > 0 then
      { dest with constructedAlt := some (tag - 1), readSource := some (tag - 1, switchInfo.1) }
    else dest
  { dest1 with tagByte := variantSetTagByte tag }

/-! ## RFieldBase::Clone (C9)

A field tree is a rose tree of attribute records.  The addr attribute
models the node's heap address; cloning allocates fresh nodes, modelled by
displacing every fresh node's address by a caller-chosen offset.  The
recursions are written tree/list mutually, mirroring the loops of the
source. -/

/-- How a field kind builds its subfields while cloning: plain kinds
(vector, array, variant, record, ...) recursively Clone each subfield
under its own name; introspected kinds (class and proxy-collection fields)
recreate the subfields from the class dictionary and then re-apply the
on-disk ids with SyncFieldIDs. -/
inductive EFieldKind where
  | plain
  | viaIntrospection
  deriving DecidableEq, Repr

/-- Attributes of one field node. -/
structure RFieldAttrs where
  addr : Nat
  fName : List Char
  fType : List Char
  fStructure : ENTupleStructure
  kind : EFieldKind
  fTypeAlias : List Char
  fDescription : List Char
  fOnDiskId : Option Nat
  fColumnRepresentative : Option (List EColumnType)
  deriving DecidableEq, Repr

/-- A field tree: a node carries its attributes and its ordered
subfields. -/
inductive RFieldTree where
  | node (attrs : RFieldAttrs) (subFields : List RFieldTree)

/-- The attributes of the root node. -/
def RFieldTree.attrs : RFieldTree → RFieldAttrs
  | .node a _ => a

mutual

/-- Modelled from the spec: recreating a subfield from the introspection
service, as the class and proxy-collection CloneImpl constructors do
before SyncFieldIDs runs.  The same class dictionary reproduces the same
names, types, structures and kinds, but in fresh storage and with the
mutable association data (description, on-disk id, representative) at its
defaults. -/
def recreateField (off : Nat) : RFieldTree → RFieldTree
  | RFieldTree.node a cs =>
    RFieldTree.node
      { a with addr := a.addr + off, fDescription := [], fOnDiskId := none,
               fColumnRepresentative := none }
      (recreateFieldList off cs)

/-- Recreation of a subfield list, item by item. -/
def recreateFieldList (off : Nat) : List RFieldTree → List RFieldTree
  | [] => []
  | c :: cs => recreateField off c :: recreateFieldList off cs

end

mutual

/-- SyncFieldIDs: walk the source tree and the recreated tree in lockstep
(the source's schema iterator visits both isomorphic trees in the same
order) and copy each on-disk id from the source node onto the recreated
node. -/
def syncFieldIDsTree : RFieldTree → RFieldTree → RFieldTree
  | RFieldTree.node fa fcs, RFieldTree.node ta tcs =>
    RFieldTree.node { ta with fOnDiskId := fa.fOnDiskId } (syncFieldIDsList fcs tcs)

/-- Lockstep id sync over subfield lists. -/
def syncFieldIDsList : List RFieldTree → List RFieldTree → List RFieldTree
  | [], _ => []
  | _ :: _, [] => []
  | f :: fs, t :: ts => syncFieldIDsTree f t :: syncFieldIDsList fs ts

end

mutual

/-- RFieldBase::Clone composed with the kind's CloneImpl: CloneImpl builds
a fresh node under the new name with the same type, structure and kind
(plain kinds Clone their subfields recursively under the subfields' own
names; introspected kinds recreate the subfields from the dictionary and
re-apply the ids with SyncFieldIDs), and Clone then copies fTypeAlias,
fOnDiskId, fDescription and the representative pointer from the original
onto the fresh node, so every root attribute except the address and the
name carries over. -/
def cloneField (off : Nat) (newName : List Char) : RFieldTree → RFieldTree
  | RFieldTree.node a cs =>
    RFieldTree.node
      { a with addr := a.addr + off, fName := newName }
      (match a.kind with
       | EFieldKind.plain => cloneFieldList off cs
       | EFieldKind.viaIntrospection => syncFieldIDsList cs (recreateFieldList off cs))

/-- Clone of a subfield list: each subfield is cloned under its own
name. -/
def cloneFieldList (off : Nat) : List RFieldTree → List RFieldTree
  | [] => []
  | c :: cs => cloneField off c.attrs.fName c :: cloneFieldList off cs

end

mutual

/-- Preorder list of (attributes, subfield count) over a tree. -/
def nodeSummaries : RFieldTree → List (RFieldAttrs × Nat)
  | RFieldTree.node a cs => (a, cs.length) :: nodeSummariesList cs

/-- Preorder summaries of a forest. -/
def nodeSummariesList : List RFieldTree → List (RFieldAttrs × Nat)
  | [] => []
  | c :: cs => nodeSummaries c ++ nodeSummariesList cs

end

/-- Per-node data the claim requires the clone to preserve: type name,
structure, on-disk id and subfield count. -/
def cloneSignature (p : RFieldAttrs × Nat) : List Char × ENTupleStructure × Option Nat × Nat :=
  (p.1.fType, p.1.fStructure, p.1.fOnDiskId, p.2)

/-- Net effect of recreation followed by id sync on one node's summary:
fresh address, cleared description and representative, everything else
(including the on-disk id, which the sync restores) as in the source. -/
def recreateSyncAttrs (off : Nat) (p : RFieldAttrs × Nat) : RFieldAttrs × Nat :=
  ({ p.1 with addr := p.1.addr + off, fDescription := [], fColumnRepresentative := none }, p.2)

end RFieldModel

namespace RFieldModel

/-! ## Theorems for C5 and C7 -/

/-- Helper: the loop with no Collection/Variant parent on the path computes
the running product. -/
theorem entryToColumnElementIndexLoop_no_collection_variant
    (path : List RFieldPathInfo) (r : Nat)
    (h : ∀ p ∈ path.tail, ¬(p.fStructure = ENTupleStructure.kCollection ∨
                            p.fStructure = ENTupleStructure.kVariant)) :
    entryToColumnElementIndexLoop path r = r * pathRepetitionProduct path := by
  induction path generalizing r with
  | nil => simp [entryToColumnElementIndexLoop, pathRepetitionProduct]
  | cons f rest ih =>
    have hParent : parentIsCollectionOrVariant rest = false := by
      cases rest with
      | nil => rfl
      | cons p rest2 =>
        have := h p (by simp)
        simp [parentIsCollectionOrVariant, this]
    have hTail : ∀ p ∈ rest.tail, ¬(p.fStructure = ENTupleStructure.kCollection ∨
                                    p.fStructure = ENTupleStructure.kVariant) := by
      intro p hp
      exact h p (List.tail_subset rest hp)
    have hParent2 : ¬(parentIsCollectionOrVariant rest = true) := by
      simp [hParent]
    rw [entryToColumnElementIndexLoop, if_neg hParent2]
    rw [ih _ hTail]
    simp [pathRepetitionProduct, Nat.mul_assoc]

/-- Helper: once some field on the path has a Collection- or
Variant-structured parent, the loop returns 0. -/
theorem entryToColumnElementIndexLoop_zero
    (path : List RFieldPathInfo) (r : Nat)
    (h : ∃ p ∈ path.tail, p.fStructure = ENTupleStructure.kCollection ∨
                          p.fStructure = ENTupleStructure.kVariant) :
    entryToColumnElementIndexLoop path r = 0 := by
  induction path generalizing r with
  | nil => simp at h
  | cons f rest ih =>
    obtain ⟨p, hp, hcv⟩ := h
    cases rest with
    | nil => simp at hp
    | cons q rest2 =>
      by_cases hq : q.fStructure = ENTupleStructure.kCollection ∨
                    q.fStructure = ENTupleStructure.kVariant
      · rw [entryToColumnElementIndexLoop]
        simp [parentIsCollectionOrVariant, hq]
      · have hpq : p ∈ (q :: rest2).tail := by
          simp only [List.tail_cons] at hp ⊢
          cases hp with
          | head => exact absurd hcv hq
          | tail _ hmem => exact hmem
        rw [entryToColumnElementIndexLoop]
        have hParent : parentIsCollectionOrVariant (q :: rest2) = false := by
          simp [parentIsCollectionOrVariant, hq]
        have hParent2 : ¬(parentIsCollectionOrVariant (q :: rest2) = true) := by
          simp [hParent]
        rw [if_neg hParent2]
        exact ih _ ⟨p, hpq, hcv⟩

/-- Claim C5: for every field and entry index, EntryToColumnElementIndex
returns 0 as soon as the walk toward the root meets a field whose parent
has Collection or Variant structure, and otherwise returns the entry index
multiplied by max(nRepetitions, 1) of every field on the path; in
particular, for the item subfield of a fixed-length array of declared
length 3, entry 1 maps to element index 3. -/
theorem entryToColumnElementIndex_spec :
    (∀ (path : List RFieldPathInfo) (i : Nat),
      (∃ p ∈ path.tail, p.fStructure = ENTupleStructure.kCollection ∨
                        p.fStructure = ENTupleStructure.kVariant) →
      entryToColumnElementIndex path i = 0) ∧
    (∀ (path : List RFieldPathInfo) (i : Nat),
      (∀ p ∈ path.tail, ¬(p.fStructure = ENTupleStructure.kCollection ∨
                          p.fStructure = ENTupleStructure.kVariant)) →
      entryToColumnElementIndex path i = i * pathRepetitionProduct path) ∧
    entryToColumnElementIndex
      [⟨ENTupleStructure.kLeaf, 0⟩, ⟨ENTupleStructure.kLeaf, 3⟩] 1 = 3 := by
  refine ⟨?_, ?_, ?_⟩
  · intro path i h
    exact entryToColumnElementIndexLoop_zero path i h
  · intro path i h
    exact entryToColumnElementIndexLoop_no_collection_variant path i h
  · decide

/-- Witness for C5 at concrete inputs: a child under a Collection parent
maps to 0, and a repetition-free two-node path multiplies through. -/
theorem entryToColumnElementIndex_spec_witness :
    entryToColumnElementIndex
      [⟨ENTupleStructure.kLeaf, 0⟩, ⟨ENTupleStructure.kCollection, 0⟩] 7 = 0 ∧
    entryToColumnElementIndex
      [⟨ENTupleStructure.kLeaf, 0⟩, ⟨ENTupleStructure.kLeaf, 3⟩] 2 = 2 * 3 :=
  ⟨entryToColumnElementIndex_spec.1
      [⟨ENTupleStructure.kLeaf, 0⟩, ⟨ENTupleStructure.kCollection, 0⟩] 7
      ⟨⟨ENTupleStructure.kCollection, 0⟩, by decide, by decide⟩,
   by
    have := entryToColumnElementIndex_spec.2.1
      [⟨ENTupleStructure.kLeaf, 0⟩, ⟨ENTupleStructure.kLeaf, 3⟩] 2 (by decide)
    simpa [pathRepetitionProduct] using this⟩

/-- Claim C7: SetColumnRepresentative fails when the field already has bound
columns, and fails when the requested representation is not among the
serialization types; in both failure cases the state, in particular the
previously chosen representative, is unchanged. -/
theorem setColumnRepresentative_spec :
    (∀ (st : List (List EColumnType)) (f : RFieldColumnState) (rep : List EColumnType),
      f.fColumns ≠ [] →
      setColumnRepresentative st f rep =
        (f, some "cannot set column representative once field is connected")) ∧
    (∀ (st : List (List EColumnType)) (f : RFieldColumnState) (rep : List EColumnType),
      rep ∉ st →
      ∃ msg, setColumnRepresentative st f rep = (f, some msg)) := by
  constructor
  · intro st f rep h
    simp [setColumnRepresentative, h]
  · intro st f rep h
    by_cases hc : f.fColumns = []
    · refine ⟨"invalid column representative", ?_⟩
      simp [setColumnRepresentative, hc, h]
    · exact ⟨"cannot set column representative once field is connected", by
        simp [setColumnRepresentative, hc]⟩

/-- Witness for C7: concrete failures with bound columns and with an
unlisted representative leave the state unchanged. -/
theorem setColumnRepresentative_spec_witness :
    setColumnRepresentative [[EColumnType.kBit]]
      ⟨[EColumnType.kBit], some [EColumnType.kBit]⟩ [EColumnType.kBit] =
      (⟨[EColumnType.kBit], some [EColumnType.kBit]⟩,
       some "cannot set column representative once field is connected") ∧
    ∃ msg, setColumnRepresentative [[EColumnType.kBit]]
      ⟨[], some [EColumnType.kBit]⟩ [EColumnType.kIndex64] =
      (⟨[], some [EColumnType.kBit]⟩, some msg) :=
  ⟨setColumnRepresentative_spec.1 [[EColumnType.kBit]]
      ⟨[EColumnType.kBit], some [EColumnType.kBit]⟩ [EColumnType.kBit] (by decide),
   setColumnRepresentative_spec.2 [[EColumnType.kBit]]
      ⟨[], some [EColumnType.kBit]⟩ [EColumnType.kIndex64] (by decide)⟩

/-! ## Theorems for C8 and C10 -/

/-- Helper: the column-type-name fold only ever extends its accumulator. -/
theorem columnTypeNames_foldl_extends (l : List EColumnType) (acc : List Char) :
    ∃ r, l.foldl
        (fun acc t => (if acc = [] then acc else acc ++ ", ".data) ++ columnTypeName t) acc =
      acc ++ r := by
  induction l generalizing acc with
  | nil => exact ⟨[], by simp⟩
  | cons t ts ih =>
    obtain ⟨r2, hr2⟩ := ih ((if acc = [] then acc else acc ++ ", ".data) ++ columnTypeName t)
    refine ⟨(if acc = [] then [] else ", ".data) ++ columnTypeName t ++ r2, ?_⟩
    rw [List.foldl_cons, hr2]
    by_cases hacc : acc = [] <;> simp [hacc]

/-- Helper: every listed column type is named inside the built name list. -/
theorem columnTypeNames_foldl_mem (l : List EColumnType) (ty : EColumnType)
    (hmem : ty ∈ l) (acc : List Char) :
    ∃ s r, l.foldl
        (fun acc t => (if acc = [] then acc else acc ++ ", ".data) ++ columnTypeName t) acc =
      s ++ columnTypeName ty ++ r := by
  induction l generalizing acc with
  | nil => simp at hmem
  | cons t ts ih =>
    rcases List.mem_cons.mp hmem with hEq | hTail
    · subst hEq
      obtain ⟨r2, hr2⟩ :=
        columnTypeNames_foldl_extends ts ((if acc = [] then acc else acc ++ ", ".data) ++ columnTypeName ty)
      refine ⟨(if acc = [] then acc else acc ++ ", ".data), r2, ?_⟩
      rw [List.foldl_cons, hr2, List.append_assoc]
    · obtain ⟨s, r, hs⟩ := ih hTail ((if acc = [] then acc else acc ++ ", ".data) ++ columnTypeName t)
      exact ⟨s, r, by rw [List.foldl_cons, hs]⟩

/-- Claim C8: when connecting a field to a page source, a missing onDiskId
raises an error whose message contains the qualified field name, and an
on-disk column-type list matching no deserialization row raises an error
whose message contains the qualified field name and the name of each
on-disk column type. -/
theorem ensureCompatibleColumnTypes_spec :
    (∀ (dts : List (List EColumnType)) (qn : List Char) (desc : Nat → List EColumnType),
      ∃ msg, ensureCompatibleColumnTypes dts qn none desc = Except.error msg ∧
        ∃ s r, msg = s ++ qn ++ r) ∧
    (∀ (dts : List (List EColumnType)) (qn : List Char) (onDiskId : Nat)
       (desc : Nat → List EColumnType),
      (∀ row ∈ dts, row ≠ desc onDiskId) →
      ∃ msg, ensureCompatibleColumnTypes dts qn (some onDiskId) desc = Except.error msg ∧
        (∃ s r, msg = s ++ qn ++ r) ∧
        (∀ ty ∈ desc onDiskId, ∃ s r, msg = s ++ columnTypeName ty ++ r)) := by
  constructor
  · intro dts qn desc
    exact ⟨_, rfl, "No on-disk column information for field `".data, "`".data, rfl⟩
  · intro dts qn onDiskId desc h
    have hfind : dts.find? (fun t => decide (t = desc onDiskId)) = none := by
      rw [List.find?_eq_none]
      intro x hx
      simpa using h x hx
    refine ⟨"On-disk column types `".data ++ columnTypeNamesOf (desc onDiskId) ++
            "` for field `".data ++ qn ++ "` cannot be matched.".data, ?_, ?_, ?_⟩
    · simp only [ensureCompatibleColumnTypes]
      rw [hfind]
    · exact ⟨"On-disk column types `".data ++ columnTypeNamesOf (desc onDiskId) ++
              "` for field `".data, "` cannot be matched.".data, by simp⟩
    · intro ty hty
      obtain ⟨s, r, hs⟩ := columnTypeNames_foldl_mem (desc onDiskId) ty hty []
      refine ⟨"On-disk column types `".data ++ s, r ++ "` for field `".data ++ qn ++
              "` cannot be matched.".data, ?_⟩
      rw [columnTypeNamesOf, hs]
      simp

/-- Witness for C8 at concrete inputs. -/
theorem ensureCompatibleColumnTypes_spec_witness :
    (∃ msg, ensureCompatibleColumnTypes [[EColumnType.kBit]] "a.b".data none
        (fun _ => [EColumnType.kIndex64]) = Except.error msg ∧
      ∃ s r, msg = s ++ "a.b".data ++ r) ∧
    (∃ msg, ensureCompatibleColumnTypes [[EColumnType.kBit]] "a.b".data (some 0)
        (fun _ => [EColumnType.kIndex64]) = Except.error msg ∧
      (∃ s r, msg = s ++ "a.b".data ++ r) ∧
      (∀ ty ∈ [EColumnType.kIndex64], ∃ s r, msg = s ++ columnTypeName ty ++ r)) :=
  ⟨ensureCompatibleColumnTypes_spec.1 [[EColumnType.kBit]] "a.b".data
      (fun _ => [EColumnType.kIndex64]),
   ensureCompatibleColumnTypes_spec.2 [[EColumnType.kBit]] "a.b".data 0
      (fun _ => [EColumnType.kIndex64]) (by decide)⟩

/-- Claim C10: a field with a fixed column representative fails
ConnectPageSource before any columns are generated or connected (the
outcome does not depend on the column-generation step at all), and a
successful connection implies no representative was fixed beforehand. -/
theorem connectPageSource_spec :
    (∀ (dts : List (List EColumnType))
       (g : RFieldConnectState → Except (List Char) (List EColumnType))
       (f : RFieldConnectState) (rep : List EColumnType),
      f.fColumnRepresentative = some rep →
      connectPageSource dts g f =
        Except.error "fixed column representative only valid when connecting to a page sink".data) ∧
    (∀ (dts : List (List EColumnType))
       (g1 g2 : RFieldConnectState → Except (List Char) (List EColumnType))
       (f : RFieldConnectState),
      f.fColumnRepresentative ≠ none →
      connectPageSource dts g1 f = connectPageSource dts g2 f) ∧
    (∀ (dts : List (List EColumnType))
       (g : RFieldConnectState → Except (List Char) (List EColumnType))
       (f f2 : RFieldConnectState),
      connectPageSource dts g f = Except.ok f2 → f.fColumnRepresentative = none) := by
  refine ⟨?_, ?_, ?_⟩
  · intro dts g f rep h
    simp [connectPageSource, h]
  · intro dts g1 g2 f h
    simp [connectPageSource, h]
  · intro dts g f f2 h
    by_cases hrep : f.fColumnRepresentative = none
    · exact hrep
    · simp [connectPageSource, hrep] at h

/-- Witness for C10 at concrete inputs. -/
theorem connectPageSource_spec_witness :
    connectPageSource [] (fun _ => Except.ok [EColumnType.kBit])
      ⟨[], some [EColumnType.kBit], none⟩ =
      Except.error "fixed column representative only valid when connecting to a page sink".data ∧
    connectPageSource [] (fun _ => Except.ok [EColumnType.kBit])
      ⟨[], some [EColumnType.kBit], none⟩ =
      connectPageSource [] (fun _ => Except.error [])
        ⟨[], some [EColumnType.kBit], none⟩ ∧
    (⟨[], some [EColumnType.kBit], none⟩ : RFieldConnectState).fColumnRepresentative =
      some [EColumnType.kBit] :=
  ⟨connectPageSource_spec.1 [] (fun _ => Except.ok [EColumnType.kBit])
      ⟨[], some [EColumnType.kBit], none⟩ [EColumnType.kBit] rfl,
   connectPageSource_spec.2.1 [] (fun _ => Except.ok [EColumnType.kBit])
      (fun _ => Except.error []) ⟨[], some [EColumnType.kBit], none⟩ (by simp),
   rfl⟩

/-! ## Theorems for C2 and C4 -/

/-- Claim C2: with the default representative, GenerateColumnsImpl picks
the dense (bit-column) encoding exactly when the item value size is below
4 bytes; under the sparse encoding, appending null, X, null, Y into a
fresh cluster writes the index-column values 0, 1, 1, 2, and GetItemIndex
is invalid exactly at the null entries. -/
theorem nullableField_spec :
    (∀ f : RNullableState, f.fColumnRepresentative = none →
      (nullableIsDense (nullableGenerateColumnsImpl f).fColumnRepresentative = true ↔
        f.itemValueSize < 4)) ∧
    (nullableAppendValue (nullableAppendNull (nullableAppendValue
        (nullableAppendNull (nullableGenerateColumnsImpl ⟨4, none, 0, [], [], []⟩)) 7)) 9).indexColumn
      = [0, 1, 1, 2] ∧
    (nullableGetItemIndex (nullableAppendValue (nullableAppendNull (nullableAppendValue
        (nullableAppendNull (nullableGenerateColumnsImpl ⟨4, none, 0, [], [], []⟩)) 7)) 9) 0 = none ∧
     nullableGetItemIndex (nullableAppendValue (nullableAppendNull (nullableAppendValue
        (nullableAppendNull (nullableGenerateColumnsImpl ⟨4, none, 0, [], [], []⟩)) 7)) 9) 1 = some 0 ∧
     nullableGetItemIndex (nullableAppendValue (nullableAppendNull (nullableAppendValue
        (nullableAppendNull (nullableGenerateColumnsImpl ⟨4, none, 0, [], [], []⟩)) 7)) 9) 2 = none ∧
     nullableGetItemIndex (nullableAppendValue (nullableAppendNull (nullableAppendValue
        (nullableAppendNull (nullableGenerateColumnsImpl ⟨4, none, 0, [], [], []⟩)) 7)) 9) 3 = some 1) := by
  refine ⟨?_, by decide, by decide⟩
  intro f h
  by_cases hsize : f.itemValueSize < 4
  · simp [nullableGenerateColumnsImpl, hasDefaultColumnRepresentative, h, hsize,
          nullableIsDense, getColumnRepresentativeOf]
  · simp [nullableGenerateColumnsImpl, hasDefaultColumnRepresentative, h, hsize,
          nullableIsDense, getColumnRepresentativeOf, nullableSerializationTypes]

/-- Witness for C2: a 2-byte item under the default representative is
densely encoded, a 4-byte one is not. -/
theorem nullableField_spec_witness :
    (nullableIsDense (nullableGenerateColumnsImpl
        ⟨2, none, 0, [], [], []⟩).fColumnRepresentative = true ↔ (2 : Nat) < 4) ∧
    (nullableIsDense (nullableGenerateColumnsImpl
        ⟨4, none, 0, [], [], []⟩).fColumnRepresentative = true ↔ (4 : Nat) < 4) :=
  ⟨nullableField_spec.1 ⟨2, none, 0, [], [], []⟩ rfl,
   nullableField_spec.1 ⟨4, none, 0, [], [], []⟩ rfl⟩

/-- Claim C4: appending "hello", "", and a 3-byte string writes cumulative
indexes 5, 5, 8 and exactly those 8 characters in order; reading an entry
with 0 characters yields the empty string; CommitCluster resets the
cumulative index so the next appended index equals the new entry's
length. -/
theorem stringField_spec :
    (stringAppendImpl (stringAppendImpl (stringAppendImpl
        ⟨0, [], []⟩ "hello".data) "".data) "abc".data).indexColumn = [5, 5, 8] ∧
    (stringAppendImpl (stringAppendImpl (stringAppendImpl
        ⟨0, [], []⟩ "hello".data) "".data) "abc".data).charColumn = "helloabc".data ∧
    stringReadGlobalImpl (stringAppendImpl (stringAppendImpl (stringAppendImpl
        ⟨0, [], []⟩ "hello".data) "".data) "abc".data) 1 = [] ∧
    (stringCommitCluster (stringAppendImpl (stringAppendImpl (stringAppendImpl
        ⟨0, [], []⟩ "hello".data) "".data) "abc".data)).fIndex = 0 ∧
    (stringAppendImpl (stringCommitCluster (stringAppendImpl (stringAppendImpl (stringAppendImpl
        ⟨0, [], []⟩ "hello".data) "".data) "abc".data)) "xy".data).indexColumn = [5, 5, 8, 2] := by
  refine ⟨rfl, rfl, rfl, rfl, rfl⟩

/-! ## Theorems for C1 and C6 -/

/-- Counterexample to claim C1 as stated: with a neither trivially
constructible nor trivially destructible item, reading an entry of 5 items
into a vector of 3 does not leave the 3 surviving items untouched while
running exactly 2 additional placement constructors; the growth path
destroys the old items and re-runs the constructors. -/
theorem vectorReadGlobalImpl_claim_counterexample :
    ¬(((vectorReadGlobalImplEvents false false false 3 5).filter isConstructEvent).length = 2 ∧
      (vectorReadGlobalImplEvents false false false 3 5).filter isDestroyEvent = []) := by
  decide

/-- Amended claim C1: for an item that is neither trivially constructible
nor trivially destructible, reading an entry of 5 items into a vector of 3
treats the growth as a potential reallocation: all 3 old items are
destroyed, all 5 positions are placement-constructed, then all 5 items are
read from the columns, in that order. -/
theorem vectorReadGlobalImpl_amended :
    vectorReadGlobalImplEvents false false false 3 5 =
      [VectorReadEvent.destroyItem 0, VectorReadEvent.destroyItem 1, VectorReadEvent.destroyItem 2,
       VectorReadEvent.constructItem 0, VectorReadEvent.constructItem 1,
       VectorReadEvent.constructItem 2, VectorReadEvent.constructItem 3,
       VectorReadEvent.constructItem 4,
       VectorReadEvent.readItem 0, VectorReadEvent.readItem 1, VectorReadEvent.readItem 2,
       VectorReadEvent.readItem 3, VectorReadEvent.readItem 4] := by
  decide

/-- Claim C6 (evidence of the code bug): for an RVec of 4-byte-aligned
items at base address 1000 in the small owning state (begin pointing at
the inline buffer, capacity not -1), the inline buffer sits at byte offset
16 as EvalValueSize lays it out, but DestroyValue compares begin against
1000 + 16 * 8 = 1128 because the addition is pointer arithmetic on a
pointer to pointer; it therefore misclassifies the vector as non-small and
frees the inline buffer. -/
theorem rvecDestroyValue_frees_inline_buffer :
    rvecInlineBufferAddr 1000 4 = 1016 ∧
    rvecIsSmallComparedAddr 1000 4 = 1128 ∧
    rvecDestroyValueFrees 1000 (rvecInlineBufferAddr 1000 4) 8 4 = true := by
  decide

/-! ## Theorems for C3 -/

/-- Helper: AppendImpl on a value holding a positive tag. -/
theorem variantAppendImpl_pos (s : RVariantWriteState) (tagByte : Int) (payload : Nat)
    (h : variantGetTag tagByte > 0) :
    variantAppendImpl s tagByte payload =
      { fNWritten := fun j =>
          if j = variantGetTag tagByte - 1 then s.fNWritten (variantGetTag tagByte - 1) + 1
          else s.fNWritten j,
        switchColumn :=
          s.switchColumn ++ [(s.fNWritten (variantGetTag tagByte - 1), variantGetTag tagByte)],
        childColumns := fun j =>
          if j = variantGetTag tagByte - 1 then s.childColumns (variantGetTag tagByte - 1) ++ [payload]
          else s.childColumns j } := by
  unfold variantAppendImpl
  simp [h]

/-- Helper: AppendImpl on a value holding the invalid tag 0. -/
theorem variantAppendImpl_zero (s : RVariantWriteState) (tagByte : Int) (payload : Nat)
    (h : variantGetTag tagByte = 0) :
    variantAppendImpl s tagByte payload =
      { s with switchColumn := s.switchColumn ++ [(0, 0)] } := by
  unfold variantAppendImpl
  simp [h]

/-- Helper: appending one more value extends the expected switch column by
one record carrying the prior per-alternative count. -/
theorem variantExpectedSwitchColumn_append (ops : List (Int × Nat)) (op : Int × Nat) :
    variantExpectedSwitchColumn (ops ++ [op]) =
      variantExpectedSwitchColumn ops ++
        [(if variantGetTag op.1 > 0 then variantCountTag ops (variantGetTag op.1) else 0,
          variantGetTag op.1)] := by
  unfold variantExpectedSwitchColumn
  have hlen : (ops ++ [op]).length = ops.length + 1 := by simp
  rw [hlen, List.range_succ, List.map_append]
  congr 1
  · apply List.map_congr_left
    intro k hk
    have hk2 : k < ops.length := List.mem_range.mp hk
    have hget : (ops ++ [op]).getD k (0, 0) = ops.getD k (0, 0) :=
      List.getD_append _ _ _ _ hk2
    have htake : (ops ++ [op]).take k = ops.take k :=
      List.take_append_of_le_length (Nat.le_of_lt hk2)
    rw [hget, htake]
  · have hget : (ops ++ [op]).getD ops.length (0, 0) = op := by
      rw [List.getD_append_right _ _ _ _ (Nat.le_refl _)]
      simp
    have htake : (ops ++ [op]).take ops.length = ops := List.take_left ops [op]
    simp [hget, htake]

/-- Helper: the per-alternative count after one more append. -/
theorem variantCountTag_append (ops : List (Int × Nat)) (op : Int × Nat) (t : Nat) :
    variantCountTag (ops ++ [op]) t =
      variantCountTag ops t + (if variantGetTag op.1 = t then 1 else 0) := by
  unfold variantCountTag
  rw [List.filter_append, List.length_append]
  congr 1
  by_cases h : variantGetTag op.1 = t <;> simp [h]

/-- Helper: the expected child column after one more append. -/
theorem variantExpectedChildColumn_append (ops : List (Int × Nat)) (op : Int × Nat) (j : Nat) :
    variantExpectedChildColumn (ops ++ [op]) j =
      variantExpectedChildColumn ops j ++
        (if variantGetTag op.1 = j + 1 then [op.2] else []) := by
  unfold variantExpectedChildColumn
  rw [List.filter_append, List.map_append]
  congr 1
  by_cases h : variantGetTag op.1 = j + 1 <;> simp [h]

/-- Helper: invariant of the append fold from a fresh cluster: the switch
column matches the per-record description, the write counters count the
appends per alternative, and each child column collects the payloads of
its alternative in order. -/
theorem variantAppendAll_inv (ops : List (Int × Nat)) :
    (variantAppendAll variantFreshState ops).switchColumn = variantExpectedSwitchColumn ops ∧
    (∀ j, (variantAppendAll variantFreshState ops).fNWritten j = variantCountTag ops (j + 1)) ∧
    (∀ j, (variantAppendAll variantFreshState ops).childColumns j =
      variantExpectedChildColumn ops j) := by
  induction ops using List.reverseRecOn with
  | nil => exact ⟨rfl, fun j => rfl, fun j => rfl⟩
  | append_singleton l a ih =>
    obtain ⟨ihS, ihW, ihC⟩ := ih
    have hfold : variantAppendAll variantFreshState (l ++ [a]) =
        variantAppendImpl (variantAppendAll variantFreshState l) a.1 a.2 := by
      unfold variantAppendAll
      rw [List.foldl_append]
      rfl
    by_cases htag : variantGetTag a.1 > 0
    · have hpred : variantGetTag a.1 - 1 + 1 = variantGetTag a.1 :=
        Nat.succ_pred_eq_of_pos htag
      rw [hfold, variantAppendImpl_pos _ _ _ htag]
      refine ⟨?_, ?_, ?_⟩
      · rw [variantExpectedSwitchColumn_append]
        simp only [ihS, if_pos htag]
        rw [ihW, hpred]
      · intro j
        rw [variantCountTag_append]
        by_cases hj : j = variantGetTag a.1 - 1
        · subst hj
          simp only [if_pos rfl]
          rw [ihW, hpred]
          simp
        · have hne : variantGetTag a.1 ≠ j + 1 := by
            intro hEq
            exact hj (by omega)
          simp only [if_neg hj, if_neg hne]
          rw [ihW]
          simp
      · intro j
        rw [variantExpectedChildColumn_append]
        by_cases hj : j = variantGetTag a.1 - 1
        · subst hj
          simp only [if_pos rfl]
          rw [ihC, hpred]
          simp
        · have hne : variantGetTag a.1 ≠ j + 1 := by
            intro hEq
            exact hj (by omega)
          simp only [if_neg hj, if_neg hne]
          rw [ihC]
          simp
    · have ht0 : variantGetTag a.1 = 0 := Nat.eq_zero_of_not_pos htag
      rw [hfold, variantAppendImpl_zero _ _ _ ht0]
      refine ⟨?_, ?_, ?_⟩
      · rw [variantExpectedSwitchColumn_append]
        simp only [ihS, ht0]
        simp
      · intro j
        rw [variantCountTag_append]
        have hne : variantGetTag a.1 ≠ j + 1 := by omega
        simp only [if_neg hne]
        rw [ihW]
        simp
      · intro j
        rw [variantExpectedChildColumn_append]
        have hne : variantGetTag a.1 ≠ j + 1 := by omega
        simp only [if_neg hne]
        rw [ihC]
        simp

/-- Claim C3: appending a variant value holding alternative t (1-based,
t positive) appends the payload to subfield t-1 and emits a switch record
whose within-tag index is the count of values of alternative t previously
appended in the cluster and whose tag is t; reading an entry with on-disk
tag 0 stores tag 0 into the destination without placement-constructing or
reading any alternative. -/
theorem variantField_spec :
    (∀ ops : List (Int × Nat),
      (variantAppendAll variantFreshState ops).switchColumn = variantExpectedSwitchColumn ops) ∧
    (∀ (ops : List (Int × Nat)) (j : Nat),
      (variantAppendAll variantFreshState ops).childColumns j =
        variantExpectedChildColumn ops j) ∧
    (∀ (variantIndex : Nat) (dest : RVariantDest),
      variantReadGlobalImpl (variantIndex, 0) dest = { dest with tagByte := variantSetTagByte 0 } ∧
      variantGetTag (variantReadGlobalImpl (variantIndex, 0) dest).tagByte = 0 ∧
      (variantReadGlobalImpl (variantIndex, 0) dest).constructedAlt = dest.constructedAlt ∧
      (variantReadGlobalImpl (variantIndex, 0) dest).readSource = dest.readSource) := by
  refine ⟨fun ops => (variantAppendAll_inv ops).1,
          fun ops j => (variantAppendAll_inv ops).2.2 j, ?_⟩
  intro variantIndex dest
  have hread : variantReadGlobalImpl (variantIndex, 0) dest =
      { dest with tagByte := variantSetTagByte 0 } := by
    simp [variantReadGlobalImpl]
  have htagbyte : variantSetTagByte 0 = -1 := by decide
  refine ⟨hread, ?_, ?_, ?_⟩
  · rw [hread, htagbyte]
    show variantGetTag (-1) = 0
    decide
  · rw [hread]
  · rw [hread]

/-! ## Theorems for C9 -/

/-- Helper: recreation preserves the subfield count. -/
theorem recreateFieldList_length (off : Nat) (cs : List RFieldTree) :
    (recreateFieldList off cs).length = cs.length := by
  induction cs with
  | nil => rw [recreateFieldList]
  | cons c cs ih =>
    rw [recreateFieldList]
    simp [ih]

/-- Helper: syncing a forest against its own recreation preserves the
subfield count. -/
theorem syncFieldIDsList_recreate_length (off : Nat) (cs : List RFieldTree) :
    (syncFieldIDsList cs (recreateFieldList off cs)).length = cs.length := by
  induction cs with
  | nil => rw [recreateFieldList, syncFieldIDsList]
  | cons c cs ih =>
    rw [recreateFieldList, syncFieldIDsList]
    simp [ih]

/-- Helper: cloning preserves the subfield count. -/
theorem cloneFieldList_length (off : Nat) (cs : List RFieldTree) :
    (cloneFieldList off cs).length = cs.length := by
  induction cs with
  | nil => rw [cloneFieldList]
  | cons c cs ih =>
    rw [cloneFieldList]
    simp [ih]

mutual

/-- Helper: the node summaries of recreation followed by id sync are the
source's summaries with fresh addresses and cleared description and
representative. -/
theorem nodeSummaries_sync_recreate (off : Nat) :
    (t : RFieldTree) →
    nodeSummaries (syncFieldIDsTree t (recreateField off t)) =
      (nodeSummaries t).map (recreateSyncAttrs off)
  | RFieldTree.node a cs => by
    rw [recreateField, syncFieldIDsTree, nodeSummaries, nodeSummaries, List.map_cons]
    rw [nodeSummariesList_sync_recreate off cs]
    rw [syncFieldIDsList_recreate_length off cs]
    rfl

/-- Helper: forest version of the recreate-then-sync summary fact. -/
theorem nodeSummariesList_sync_recreate (off : Nat) :
    (cs : List RFieldTree) →
    nodeSummariesList (syncFieldIDsList cs (recreateFieldList off cs)) =
      (nodeSummariesList cs).map (recreateSyncAttrs off)
  | [] => by
    rw [recreateFieldList, syncFieldIDsList, nodeSummariesList]
    rfl
  | c :: cs => by
    rw [recreateFieldList, syncFieldIDsList, nodeSummariesList, nodeSummariesList,
        List.map_append]
    rw [nodeSummaries_sync_recreate off c, nodeSummariesList_sync_recreate off cs]

end

mutual

/-- Helper: cloning preserves every node's type name, structure, on-disk
id and subfield count, in preorder. -/
theorem nodeSummaries_clone_sig (off : Nat) (nm : List Char) :
    (t : RFieldTree) →
    (nodeSummaries (cloneField off nm t)).map cloneSignature =
      (nodeSummaries t).map cloneSignature
  | RFieldTree.node a cs => by
    rw [cloneField, nodeSummaries, nodeSummaries, List.map_cons, List.map_cons]
    cases hkind : a.kind with
    | plain =>
      rw [nodeSummariesList_clone_sig off cs, cloneFieldList_length off cs]
      rfl
    | viaIntrospection =>
      rw [nodeSummariesList_sync_recreate off cs, syncFieldIDsList_recreate_length off cs,
          List.map_map]
      have htail : (nodeSummariesList cs).map (cloneSignature ∘ recreateSyncAttrs off) =
          (nodeSummariesList cs).map cloneSignature :=
        List.map_congr_left (fun p _ => rfl)
      rw [htail]
      rfl

/-- Helper: forest version of the clone signature fact. -/
theorem nodeSummariesList_clone_sig (off : Nat) :
    (cs : List RFieldTree) →
    (nodeSummariesList (cloneFieldList off cs)).map cloneSignature =
      (nodeSummariesList cs).map cloneSignature
  | [] => by
    rw [cloneFieldList, nodeSummariesList]
  | c :: cs => by
    rw [cloneFieldList, nodeSummariesList, nodeSummariesList, List.map_append,
        List.map_append]
    rw [nodeSummaries_clone_sig off c.attrs.fName c, nodeSummariesList_clone_sig off cs]

end

mutual

/-- Helper: every node of the clone sits at its original's address plus
the allocation offset, in preorder. -/
theorem nodeSummaries_clone_addr (off : Nat) (nm : List Char) :
    (t : RFieldTree) →
    (nodeSummaries (cloneField off nm t)).map (fun p => p.1.addr) =
      (nodeSummaries t).map (fun p => p.1.addr + off)
  | RFieldTree.node a cs => by
    rw [cloneField, nodeSummaries, nodeSummaries, List.map_cons, List.map_cons]
    cases hkind : a.kind with
    | plain =>
      rw [nodeSummariesList_clone_addr off cs]
    | viaIntrospection =>
      rw [nodeSummariesList_sync_recreate off cs, List.map_map]
      have htail : (nodeSummariesList cs).map ((fun p => p.1.addr) ∘ recreateSyncAttrs off) =
          (nodeSummariesList cs).map (fun p => p.1.addr + off) :=
        List.map_congr_left (fun p _ => rfl)
      rw [htail]

/-- Helper: forest version of the clone address fact. -/
theorem nodeSummariesList_clone_addr (off : Nat) :
    (cs : List RFieldTree) →
    (nodeSummariesList (cloneFieldList off cs)).map (fun p => p.1.addr) =
      (nodeSummariesList cs).map (fun p => p.1.addr + off)
  | [] => by
    rw [cloneFieldList, nodeSummariesList]
    rfl
  | c :: cs => by
    rw [cloneFieldList, nodeSummariesList, nodeSummariesList, List.map_append,
        List.map_append]
    rw [nodeSummaries_clone_addr off c.attrs.fName c, nodeSummariesList_clone_addr off cs]

end

/-- Helper: the root attributes of the clone equal the original's with a
fresh address and the new name. -/
theorem cloneField_root_attrs (off : Nat) (nm : List Char) (t : RFieldTree) :
    (cloneField off nm t).attrs =
      { t.attrs with addr := t.attrs.addr + off, fName := nm } := by
  cases t with
  | node a cs =>
    rw [cloneField]
    rfl

/-- Claim C9: Clone(newName) produces a tree isomorphic to the original in
which every node has the same typeName, structure and onDiskId as the
corresponding original node (including the recreated children of class and
proxy-collection fields), the root's typeAlias, description and
column-representative pointer are copied, and the clone's nodes live in
fresh storage disjoint from the original's. -/
theorem cloneField_spec (off : Nat) (nm : List Char) (t : RFieldTree) :
    ((nodeSummaries (cloneField off nm t)).map cloneSignature =
      (nodeSummaries t).map cloneSignature) ∧
    ((cloneField off nm t).attrs.fTypeAlias = t.attrs.fTypeAlias ∧
     (cloneField off nm t).attrs.fDescription = t.attrs.fDescription ∧
     (cloneField off nm t).attrs.fColumnRepresentative = t.attrs.fColumnRepresentative ∧
     (cloneField off nm t).attrs.fOnDiskId = t.attrs.fOnDiskId) ∧
    ((nodeSummaries (cloneField off nm t)).map (fun p => p.1.addr) =
      (nodeSummaries t).map (fun p => p.1.addr + off)) ∧
    ((∀ p ∈ nodeSummaries t, p.1.addr < off) →
      ∀ q ∈ nodeSummaries (cloneField off nm t), ∀ p ∈ nodeSummaries t,
        q.1.addr ≠ p.1.addr) := by
  refine ⟨nodeSummaries_clone_sig off nm t, ?_, nodeSummaries_clone_addr off nm t, ?_⟩
  · rw [cloneField_root_attrs off nm t]
    exact ⟨rfl, rfl, rfl, rfl⟩
  · intro hsmall q hq p hp
    have hmem : q.1.addr ∈ (nodeSummaries (cloneField off nm t)).map (fun p => p.1.addr) :=
      List.mem_map_of_mem _ hq
    rw [nodeSummaries_clone_addr off nm t] at hmem
    obtain ⟨p0, _, hp0⟩ := List.mem_map.mp hmem
    have hlt := hsmall p hp
    omega

/-- Witness for C9 at a concrete two-node tree (an introspected class
field with one subfield), allocation offset 100. -/
theorem cloneField_spec_witness :
    (∀ p ∈ nodeSummaries
        (RFieldTree.node
          ⟨0, "f".data, "C".data, ENTupleStructure.kRecord, EFieldKind.viaIntrospection,
           "A".data, "d".data, some 7, none⟩
          [RFieldTree.node
            ⟨1, "m".data, "T".data, ENTupleStructure.kLeaf, EFieldKind.plain,
             [], [], some 8, none⟩ []]),
      p.1.addr < 100) ∧
    (∀ q ∈ nodeSummaries (cloneField 100 "g".data
        (RFieldTree.node
          ⟨0, "f".data, "C".data, ENTupleStructure.kRecord, EFieldKind.viaIntrospection,
           "A".data, "d".data, some 7, none⟩
          [RFieldTree.node
            ⟨1, "m".data, "T".data, ENTupleStructure.kLeaf, EFieldKind.plain,
             [], [], some 8, none⟩ []])),
      ∀ p ∈ nodeSummaries
        (RFieldTree.node
          ⟨0, "f".data, "C".data, ENTupleStructure.kRecord, EFieldKind.viaIntrospection,
           "A".data, "d".data, some 7, none⟩
          [RFieldTree.node
            ⟨1, "m".data, "T".data, ENTupleStructure.kLeaf, EFieldKind.plain,
             [], [], some 8, none⟩ []]),
        q.1.addr ≠ p.1.addr) := by
  have hsmall : ∀ p ∈ nodeSummaries
      (RFieldTree.node
        ⟨0, "f".data, "C".data, ENTupleStructure.kRecord, EFieldKind.viaIntrospection,
         "A".data, "d".data, some 7, none⟩
        [RFieldTree.node
          ⟨1, "m".data, "T".data, ENTupleStructure.kLeaf, EFieldKind.plain,
           [], [], some 8, none⟩ []]),
      p.1.addr < 100 := by
    simp only [nodeSummaries, nodeSummariesList]
    decide
  exact ⟨hsmall,
    (cloneField_spec 100 "g".data
      (RFieldTree.node
        ⟨0, "f".data, "C".data, ENTupleStructure.kRecord, EFieldKind.viaIntrospection,
         "A".data, "d".data, some 7, none⟩
        [RFieldTree.node
          ⟨1, "m".data, "T".data, ENTupleStructure.kLeaf, EFieldKind.plain,
           [], [], some 8, none⟩ []])).2.2.2 hsmall⟩

end RFieldModel
